import Mathlib

/-!
Verification of the tracking / team-classification / metrics / orchestration
core of the football analysis inference engine.

The C++ source is shallowly embedded: `float`/`double` arithmetic is modelled
exactly over `ℚ` (and over `ℝ` for the metrics aggregator, whose claims involve
Euclidean distance), pointers and in-place mutation become explicit state
passing, and external numeric collaborators (OpenCV k-means, the YOLO
detector, video decoding) appear as explicit inputs to the embedded functions.
-/

namespace Football

/-- Axis-aligned rectangle, modelling `cv::Rect2f` (origin + size). -/
structure Rect where
  x : ℚ
  y : ℚ
  width : ℚ
  height : ℚ
  deriving DecidableEq, Repr

/-- A 2-d point, modelling `cv::Point2f`. -/
structure Point2 where
  x : ℚ
  y : ℚ
  deriving DecidableEq, Repr

/-- Area of a rectangle, `width * height` as used in `calculate_iou`. -/
def Rect.area (r : Rect) : ℚ := r.width * r.height

/-- Embedding of `PlayerTracker::calculate_iou` (player_tracker.cpp):
intersection over union of two boxes, `0` when the union area is not
positive. -/
def calculate_iou (box1 box2 : Rect) : ℚ :=
  let x1 := max box1.x box2.x
  let y1 := max box1.y box2.y
  let x2 := min (box1.x + box1.width) (box2.x + box2.width)
  let y2 := min (box1.y + box1.height) (box2.y + box2.height)
  let intersection_area := max 0 (x2 - x1) * max 0 (y2 - y1)
  let box1_area := box1.width * box1.height
  let box2_area := box2.width * box2.height
  let union_area := box1_area + box2_area - intersection_area
  if 0 < union_area then intersection_area / union_area else 0

/-- Two boxes overlap when their intersection rectangle has positive width
and height. -/
def Rect.overlaps (a b : Rect) : Prop :=
  max a.x b.x < min (a.x + a.width) (b.x + b.width) ∧
  max a.y b.y < min (a.y + a.height) (b.y + b.height)

instance (a b : Rect) : Decidable (a.overlaps b) := by
  unfold Rect.overlaps; infer_instance

/-- The homography-based coordinate mapper (`Calibration`).  The constructor
either succeeds in reading a 3x3 matrix from the YAML file or, on any
`YAML::Exception` (file missing or malformed), leaves `homography_matrix_`
an empty `cv::Mat`; the empty state is modelled by `none`. -/
structure Calibration where
  homography_matrix : Option (Fin 3 → Fin 3 → ℚ)

/-- `cv::perspectiveTransform` on a single point for a 3x3 homography `H`:
the projective image of `(x, y)`. -/
def perspectivePoint (H : Fin 3 → Fin 3 → ℚ) (p : Point2) : Point2 :=
  let w := H 2 0 * p.x + H 2 1 * p.y + H 2 2
  { x := (H 0 0 * p.x + H 0 1 * p.y + H 0 2) / w,
    y := (H 1 0 * p.x + H 1 1 * p.y + H 1 2) / w }

/-- Embedding of `Calibration::transform` on one `(id, point)` pair
(calibration.cpp, lines 27-36).  `transformed_point` is the
default-constructed `cv::Point2f` — the origin — and is only overwritten
when the homography matrix is non-empty. -/
def Calibration.transform (c : Calibration) (track : ℤ × Point2) : ℤ × Point2 :=
  let transformed_point : Point2 := { x := 0, y := 0 }
  match c.homography_matrix with
  | some H => (track.1, perspectivePoint H track.2)
  | none => (track.1, transformed_point)

/-- Embedding of the list overload of `Calibration::transform`. -/
def Calibration.transformList (c : Calibration) (tracks : List (ℤ × Point2)) :
    List (ℤ × Point2) :=
  tracks.map c.transform

/-! ## Motion filter (kalman_filter.cpp)

`cv::KalmanFilter` state with a 4-d state `(x, y, vx, vy)`, a 2-d
position-only measurement, transition matrix `F` with `dt = 1`, process
noise `0.1·I`, measurement noise `0.01·I`.  `cv::KalmanFilter::predict`
computes the prior and then copies it onto the posterior;
`cv::KalmanFilter::correct` applies the standard Kalman update. -/

/-- State transition matrix `F` (constant velocity, `dt = 1`). -/
def kfF : Matrix (Fin 4) (Fin 4) ℚ := !![1,0,1,0; 0,1,0,1; 0,0,1,0; 0,0,0,1]

/-- Measurement matrix `H` (positions only). -/
def kfH : Matrix (Fin 2) (Fin 4) ℚ := !![1,0,0,0; 0,1,0,0]

/-- Process noise covariance `Q = 0.1·I`. -/
def kfQ : Matrix (Fin 4) (Fin 4) ℚ := (1/10 : ℚ) • 1

/-- Measurement noise covariance `R = 0.01·I`. -/
def kfR : Matrix (Fin 2) (Fin 2) ℚ := (1/100 : ℚ) • 1

/-- Inverse of a 2x2 matrix by the adjugate formula (total: gives `0` on a
singular matrix; the innovation covariance inverted by `cv::KalmanFilter` is
positive definite in practice). -/
def inv2 (M : Matrix (Fin 2) (Fin 2) ℚ) : Matrix (Fin 2) (Fin 2) ℚ :=
  let d := M 0 0 * M 1 1 - M 0 1 * M 1 0
  if d = 0 then 0 else (1/d) • !![M 1 1, -(M 0 1); -(M 1 0), M 0 0]

/-- The `KalmanFilter` wrapper state: `cv::KalmanFilter`'s pre/post state
vectors and error covariances. -/
structure KalmanFilter where
  statePre : Fin 4 → ℚ
  statePost : Fin 4 → ℚ
  errorCovPre : Matrix (Fin 4) (Fin 4) ℚ
  errorCovPost : Matrix (Fin 4) (Fin 4) ℚ

/-- The `KalmanFilter()` constructor: zero state, `errorCovPost = I`. -/
def KalmanFilter.new : KalmanFilter :=
  { statePre := fun _ => 0, statePost := fun _ => 0,
    errorCovPre := 0, errorCovPost := 1 }

/-- `KalmanFilter::init`: overwrite the posterior state with the measured
position and zero velocity (covariances untouched). -/
def KalmanFilter.init (kf : KalmanFilter) (m : Point2) : KalmanFilter :=
  { kf with statePost := fun i =>
      if i = 0 then m.x else if i = 1 then m.y else 0 }

/-- `KalmanFilter::predict`: advance one time step; OpenCV also commits the
prior onto the posterior.  Returns the predicted position and new state. -/
def KalmanFilter.predict (kf : KalmanFilter) : Point2 × KalmanFilter :=
  let xPre := kfF.mulVec kf.statePost
  let pPre := kfF * kf.errorCovPost * kfF.transpose + kfQ
  (⟨xPre 0, xPre 1⟩,
   { statePre := xPre, statePost := xPre, errorCovPre := pPre,
     errorCovPost := pPre })

/-- `KalmanFilter::correct`: standard Kalman measurement update on the prior
quantities.  Returns the corrected position and new state. -/
def KalmanFilter.correct (kf : KalmanFilter) (m : Point2) : Point2 × KalmanFilter :=
  let z : Fin 2 → ℚ := fun i => if i = 0 then m.x else m.y
  let S := kfH * kf.errorCovPre * kfH.transpose + kfR
  let K := kf.errorCovPre * kfH.transpose * inv2 S
  let xPost := kf.statePre + K.mulVec (z - kfH.mulVec kf.statePre)
  let pPost := kf.errorCovPre - K * (kfH * kf.errorCovPre)
  (⟨xPost 0, xPost 1⟩,
   { kf with statePost := xPost, errorCovPost := pPost })

/-- `KalmanFilter::get_state`: the committed (posterior) position. -/
def KalmanFilter.get_state (kf : KalmanFilter) : Point2 :=
  ⟨kf.statePost 0, kf.statePost 1⟩

/-! ## Player tracking (player_tracker.cpp / player_tracker.h) -/

/-- One detector output, `Detection{box, confidence, class_id}`. -/
structure Detection where
  box : Rect
  confidence : ℚ
  class_id : ℤ
  deriving DecidableEq, Repr

/-- An HSV colour sample (`cv::Scalar` as used for dominant colours). -/
structure Color3 where
  h : ℚ
  s : ℚ
  v : ℚ
  deriving DecidableEq, Repr

/-- A video frame, abstracted to what the tracker reads from it: its pixel
dimensions and, for each ROI rectangle, the dominant HSV colour that
`PlayerTracker::get_dominant_color` (central crop, HSV conversion, k = 1
k-means) would extract from that region.  The numeric colour extraction is an
external OpenCV computation; no claim depends on its output values, only on
when it is invoked, so the frame carries it as data. -/
structure Frame where
  cols : ℚ
  rows : ℚ
  colorAt : Rect → Color3

/-- The in-bounds test guarding colour sampling in `PlayerTracker::update`:
`bbox.x >= 0 && bbox.y >= 0 && bbox.x + width <= frame.cols && bbox.y +
height <= frame.rows`. -/
def boxInFrame (box : Rect) (f : Frame) : Bool :=
  decide (0 ≤ box.x) && decide (0 ≤ box.y) &&
  decide (box.x + box.width ≤ f.cols) && decide (box.y + box.height ≤ f.rows)

/-- The measurement point used by both trackers: the box's bottom centre
`(x + width/2, y + height)`. -/
def detectionBottomCenter (box : Rect) : Point2 :=
  ⟨box.x + box.width / 2, box.y + box.height⟩

/-- One player track (`struct Track`). -/
structure Track where
  id : ℤ
  kf : KalmanFilter
  last_bbox : Rect
  frames_since_update : ℤ
  dominant_color : Color3

/-- `PlayerTracker` state: the monotonic id counter, the live tracks and the
current team-assignment map. -/
structure PlayerTracker where
  next_track_id : ℤ
  tracks : List Track
  team_assignments : ℤ → Option String

/-- `PlayerTracker()` constructor. -/
def PlayerTracker.new : PlayerTracker := ⟨0, [], fun _ => none⟩

/-- Embedding of `PlayerTracker::get_team_assignments`. -/
def PlayerTracker.get_team_assignments (pt : PlayerTracker) : ℤ → Option String :=
  pt.team_assignments

/-- `max_frames_to_skip_` for players. -/
def max_frames_to_skip_players : ℤ := 5

/-- Step 1 of `PlayerTracker::update`: predict every track's motion filter,
recompute the box's top-left from the predicted bottom-centre (size
unchanged) and increment `frames_since_update`. -/
def predictTracks (ts : List Track) : List Track :=
  ts.map fun t =>
    let pr := t.kf.predict
    { t with
      kf := pr.2,
      last_bbox := { t.last_bbox with
        x := pr.1.x - t.last_bbox.width / 2,
        y := pr.1.y - t.last_bbox.height },
      frames_since_update := t.frames_since_update + 1 }

/-- The inner loop of the greedy association: scan detections from index `j`
upward, skipping already-matched indices, keeping the best strict
improvement over the running maximum (initially `(0, -1)`). -/
def bestMatchAux (box : Rect) (matched : Finset ℕ) :
    ℕ → List Detection → ℚ × ℤ → ℚ × ℤ
  | _, [], acc => acc
  | j, d :: rest, acc =>
    let acc' := if j ∈ matched then acc
      else if acc.1 < calculate_iou box d.box
        then (calculate_iou box d.box, (j : ℤ)) else acc
    bestMatchAux box matched (j + 1) rest acc'

/-- `(max_iou, best_match_idx)` for one track against the currently
unmatched detections. -/
def bestMatch (box : Rect) (dets : List Detection) (matched : Finset ℕ) :
    ℚ × ℤ :=
  bestMatchAux box matched 0 dets (0, -1)

/-- The IOU threshold `0.3` of the greedy association, as the exact
rational (written via `mkRat`, which the kernel can evaluate). -/
def iou_threshold : ℚ := mkRat 3 10

/-- Step 2 of `PlayerTracker::update`: for each track in order, take its best
unmatched detection; if that IOU exceeds 0.3, correct the filter with the
detection's bottom centre, replace the box, reset `frames_since_update`,
resample the dominant colour when the box lies inside the frame, and mark the
detection consumed.  Each processed track is returned together with the
detection index it matched (`none` when unmatched), alongside the final
consumed-index set. -/
def associateTracks (dets : List Detection) (frame : Frame) :
    List Track → Finset ℕ → List (Track × Option ℕ) × Finset ℕ
  | [], matched => ([], matched)
  | t :: rest, matched =>
    let best := bestMatch t.last_bbox dets matched
    if iou_threshold < best.1 then
      match dets[best.2.toNat]? with
      | some d =>
        let t' := { t with
          kf := (t.kf.correct (detectionBottomCenter d.box)).2,
          last_bbox := d.box,
          frames_since_update := 0,
          dominant_color := if boxInFrame d.box frame
            then frame.colorAt d.box else t.dominant_color }
        let restOut := associateTracks dets frame rest
          (insert best.2.toNat matched)
        ((t', some best.2.toNat) :: restOut.1, restOut.2)
      | none =>
        let restOut := associateTracks dets frame rest matched
        ((t, none) :: restOut.1, restOut.2)
    else
      let restOut := associateTracks dets frame rest matched
      ((t, none) :: restOut.1, restOut.2)

/-- Step 3 of `PlayerTracker::update`: erase tracks whose
`frames_since_update` exceeds `max_frames_to_skip_`. -/
def removeStale (ts : List Track) : List Track :=
  ts.filter fun t => !decide (max_frames_to_skip_players < t.frames_since_update)

/-- Step 4 of `PlayerTracker::update`: create a fresh track for every
unmatched detection, allocating ids from the store's counter. -/
def createNewTracksAux (frame : Frame) (matched : Finset ℕ) :
    ℕ → ℤ → List Detection → List Track × ℤ
  | _, next_id, [] => ([], next_id)
  | j, next_id, d :: rest =>
    if j ∈ matched then createNewTracksAux frame matched (j + 1) next_id rest
    else
      let t : Track := {
        id := next_id,
        kf := KalmanFilter.new.init (detectionBottomCenter d.box),
        last_bbox := d.box,
        frames_since_update := 0,
        dominant_color := if boxInFrame d.box frame
          then frame.colorAt d.box else ⟨0, 0, 0⟩ }
      let out := createNewTracksAux frame matched (j + 1) (next_id + 1) rest
      (t :: out.1, out.2)

/-- Embedding of `PlayerTracker::update`. -/
def PlayerTracker.update (pt : PlayerTracker) (dets : List Detection)
    (frame : Frame) : PlayerTracker :=
  let predicted := predictTracks pt.tracks
  let assoc := associateTracks dets frame predicted ∅
  let surviving := removeStale (assoc.1.map Prod.fst)
  let created := createNewTracksAux frame assoc.2 0 pt.next_track_id dets
  { pt with tracks := surviving ++ created.1, next_track_id := created.2 }

/-- Embedding of `PlayerTracker::get_tracks`: `(id, smoothed position)` for
every live track. -/
def PlayerTracker.get_tracks (pt : PlayerTracker) : List (ℤ × Point2) :=
  pt.tracks.map fun t => (t.id, t.kf.get_state)

/-! ## Ball tracking (ball_tracker.cpp / ball_tracker.h) -/

/-- `max_frames_to_skip_` for the ball. -/
def max_frames_to_skip_ball : ℤ := 10

/-- `BallTracker` state. -/
structure BallTracker where
  kf : KalmanFilter
  is_tracking : Bool
  frames_since_detection : ℤ
  track : ℤ × Point2

/-- `BallTracker()` constructor: `track_ = {-1, {}}`. -/
def BallTracker.new : BallTracker :=
  ⟨KalmanFilter.new, false, 0, (-1, ⟨0, 0⟩)⟩

/-- The selection loop of `BallTracker::update`: the detection with the
highest confidence, by strict improvement over a running maximum starting at
`0` (ties keep the first seen; a confidence of `0` is never selected). -/
def selectBestBall (dets : List Detection) : ℚ × Option Detection :=
  dets.foldl
    (fun acc det => if acc.1 < det.confidence then (det.confidence, some det) else acc)
    (0, none)

/-- Embedding of `BallTracker::update`. -/
def BallTracker.update (bt : BallTracker) (dets : List Detection) : BallTracker :=
  let bt1 := match (selectBestBall dets).2 with
    | some best =>
      let center := detectionBottomCenter best.box
      let btInner := if bt.is_tracking
        then { bt with kf := (bt.kf.correct center).2 }
        else { bt with kf := bt.kf.init center, is_tracking := true }
      { btInner with frames_since_detection := 0 }
    | none =>
      if bt.is_tracking then
        let c := bt.frames_since_detection + 1
        if max_frames_to_skip_ball < c then
          { bt with
            frames_since_detection := c
            is_tracking := false
            track := (-1, ⟨0, 0⟩) }
        else
          { bt with frames_since_detection := c, kf := bt.kf.predict.2 }
      else bt
  if bt1.is_tracking then
    let pr := bt1.kf.predict
    { bt1 with kf := pr.2, track := (0, pr.1) }
  else bt1

/-- Embedding of `BallTracker::get_track`. -/
def BallTracker.get_track (bt : BallTracker) : ℤ × Point2 := bt.track

/-! ## Association invariants -/

/-- The committed match set of one association pass: the `(track index,
detection index)` pairs committed by the greedy loop, read off the tagged
output of `associateTracks`. -/
def committedMatchesAux : ℕ → List (Track × Option ℕ) → List (ℕ × ℕ)
  | _, [] => []
  | i, (_, none) :: rest => committedMatchesAux (i + 1) rest
  | i, (_, some j) :: rest => (i, j) :: committedMatchesAux (i + 1) rest

/-- The committed match set, indexing tracks from `0`. -/
def committedMatches (l : List (Track × Option ℕ)) : List (ℕ × ℕ) :=
  committedMatchesAux 0 l

/-! ## Concrete fixtures used by witness scenarios -/

/-- A concrete 100x100 frame whose colour extraction returns black. -/
def frameW : Frame := ⟨100, 100, fun _ => ⟨0, 0, 0⟩⟩

/-- A concrete track with a 10x10 box at the origin. -/
def trackW : Track := ⟨0, KalmanFilter.new, ⟨0, 0, 10, 10⟩, 0, ⟨0, 0, 0⟩⟩

/-- A detection coinciding with `trackW`'s predicted box `(-5, -10, 10, 10)`. -/
def detW : Detection := ⟨⟨-5, -10, 10, 10⟩, 1, 0⟩

/-! ## Team assignment (`PlayerTracker::assign_teams`)

`cv::kmeans` over the tracks' dominant colours is an external numeric
routine; its output label vector (one cluster label per track, in track
order) is an input of the embedded function.  `std::sort` over the
`(size, member ids)` pairs with reversed iterators yields the unique
arrangement sorted descending under the strict lexicographic pair order
(all keys are distinct, since distinct clusters have distinct member
vectors); it is modelled by an insertion sort under the matching
non-strict order. -/

/-- `operator<` on `std::vector<int>`: lexicographic. -/
def vecLtB : List ℤ → List ℤ → Bool
  | [], [] => false
  | [], _ :: _ => true
  | _ :: _, [] => false
  | a :: as, b :: bs => if a < b then true else if b < a then false else vecLtB as bs

/-- `operator<` on `std::pair<int, std::vector<int>>`: lexicographic. -/
def clusterLtB (a b : ℕ × List ℤ) : Bool :=
  if a.1 < b.1 then true else if b.1 < a.1 then false else vecLtB a.2 b.2

/-- The non-strict descending order used to model the reversed
`std::sort`: `a` may precede `b` iff `¬ b > a`, i.e. `¬ a < b`. -/
def clusterGe (a b : ℕ × List ℤ) : Prop := clusterLtB a b = false

instance : DecidableRel clusterGe := fun a b => by
  unfold clusterGe; infer_instance

/-- The ascending cluster keys of `std::map<int, std::vector<int>>`. -/
def clusterIds (labels : List ℕ) : List ℕ :=
  List.insertionSort (· ≤ ·) labels.dedup

/-- The member track ids of cluster `c`, in track order. -/
def clusterMembers (tracks : List Track) (labels : List ℕ) (c : ℕ) : List ℤ :=
  ((labels.zip tracks).filter fun p => p.1 == c).map fun p => p.2.id

/-- The `(size, member ids)` pairs sorted by descending size (ties by
descending member vector), as `assign_teams` builds them. -/
def sortedClusters (tracks : List Track) (labels : List ℕ) :
    List (ℕ × List ℤ) :=
  List.insertionSort clusterGe
    ((clusterIds labels).map fun c =>
      ((clusterMembers tracks labels c).length, clusterMembers tracks labels c))

/-- The labelling loop of `assign_teams`: walk the ranked clusters with the
set of already-assigned labels, giving rank 0 "Team A", rank 1 "Team B", a
not-yet-assigned "Referee" to a cluster of at most 2 members, and "Unknown"
otherwise. -/
def labelClustersAux : ℕ → List String → List (ℕ × List ℤ) →
    List ((ℕ × List ℤ) × String)
  | _, _, [] => []
  | i, assigned, c :: rest =>
    let lbl := if i = 0 ∧ "Team A" ∉ assigned then "Team A"
      else if i = 1 ∧ "Team B" ∉ assigned then "Team B"
      else if c.2.length ≤ 2 ∧ "Referee" ∉ assigned then "Referee"
      else "Unknown"
    let assigned1 := if lbl = "Unknown" then assigned else lbl :: assigned
    (c, lbl) :: labelClustersAux (i + 1) assigned1 rest

/-- The labelling rule in the specification's own words (rank order known,
`refTaken` says whether "Referee" was already granted): 1st-ranked cluster
gets "Team A", 2nd-ranked "Team B", the first remaining cluster with at most
2 members "Referee", all others "Unknown".  Written from the spec, to be
compared with `labelClustersAux`. -/
def specAssignLabels : ℕ → Bool → List (ℕ × List ℤ) →
    List ((ℕ × List ℤ) × String)
  | _, _, [] => []
  | rank, refTaken, c :: rest =>
    let lbl := if rank = 0 then "Team A"
      else if rank = 1 then "Team B"
      else if c.2.length ≤ 2 ∧ refTaken = false then "Referee"
      else "Unknown"
    (c, lbl) :: specAssignLabels (rank + 1)
      (refTaken || (decide (2 ≤ rank) && decide (c.2.length ≤ 2))) rest

/-- Embedding of `PlayerTracker::assign_teams`, parameterised by the k-means
label vector.  (`K = min(n, 3)` etc. only parameterise `cv::kmeans` and so
are absorbed into the `labels` input.)  The team map is cleared and then
written cluster by cluster in rank order. -/
def PlayerTracker.assign_teams (pt : PlayerTracker) (labels : List ℕ) :
    PlayerTracker :=
  if pt.tracks.isEmpty then pt
  else
    let lc := labelClustersAux 0 [] (sortedClusters pt.tracks labels)
    let cleared : ℤ → Option String := fun _ => none
    let written := lc.foldl
      (fun m p => p.1.2.foldl
        (fun m1 id => fun i => if i = id then some p.2 else m1 i) m)
      cleared
    { pt with team_assignments := written }

/-- A minimal concrete track with a given id (colours are irrelevant once
the k-means labels are fixed). -/
def mkTrackC6 (i : ℤ) : Track := ⟨i, KalmanFilter.new, ⟨0, 0, 1, 1⟩, 0, ⟨0, 0, 0⟩⟩

/-- A store of 6 tracks with ids 0..5 for the 3/2/1 clustering example. -/
def trackerC6 : PlayerTracker :=
  ⟨6, [mkTrackC6 0, mkTrackC6 1, mkTrackC6 2, mkTrackC6 3, mkTrackC6 4,
      mkTrackC6 5], fun _ => none⟩

/-! ## Metrics (analytics/metrics.cpp)

The rows are stored in the source as `std::map<std::string, std::string>`
of stringified numbers; they are modelled with exact numeric fields (the
string formatting and the constant placeholder event fields are omitted),
and the `float`/`double` arithmetic is idealised over `ℝ` so that the
Euclidean distance is exact. -/

/-- One appended player row (the numeric fields the claims concern). -/
structure PlayerRow where
  frame : ℤ
  player_id : ℤ
  x : ℝ
  y : ℝ
  team : String
  speed_mps : ℝ
  distance_meters : ℝ
  total_distance_meters : ℝ

/-- One appended ball row. -/
structure BallRow where
  frame : ℤ
  x : ℝ
  y : ℝ

/-- `MetricsCalculator` state (metrics.h). -/
structure MetricsCalculator where
  player_metrics : List PlayerRow
  ball_metrics : List BallRow
  last_player_positions : ℤ → Option (ℝ × ℝ)
  player_total_distances : ℤ → Option ℝ
  last_player_frame_counts : ℤ → Option ℤ
  player_frame_counts : ℤ → Option ℤ
  video_fps : ℝ

/-- The `MetricsCalculator` constructor: empty state, default 30 fps. -/
noncomputable def MetricsCalculator.new : MetricsCalculator :=
  ⟨[], [], fun _ => none, fun _ => none, fun _ => none, fun _ => none, 30⟩

/-- `cv::norm` of the difference of two 2-d points: Euclidean distance. -/
noncomputable def distR (p q : ℝ × ℝ) : ℝ :=
  Real.sqrt ((p.1 - q.1) ^ 2 + (p.2 - q.2) ^ 2)

/-- The per-track body of the player loop in
`MetricsCalculator::process_frame`: append one row and refresh the per-id
maps.  A track is "seen before" when both the last-position and last-frame
maps hold an entry for its id. -/
noncomputable def processPlayerTrack (mc : MetricsCalculator)
    (frame_count : ℤ) (fps : ℝ) (team_assignments : ℤ → Option String)
    (track : ℤ × (ℝ × ℝ)) : MetricsCalculator :=
  let team := match team_assignments track.1 with
    | some s => s
    | none => "Unknown"
  match mc.last_player_positions track.1,
      mc.last_player_frame_counts track.1 with
  | some last_pos, some last_frame =>
    let distance_meters := distR track.2 last_pos
    let delta_time := ((frame_count : ℝ) - (last_frame : ℝ)) / fps
    let speed_mps := if 0 < delta_time then distance_meters / delta_time else 0
    let new_total := (mc.player_total_distances track.1).getD 0 + distance_meters
    { mc with
      player_metrics := mc.player_metrics ++
        [⟨frame_count, track.1, track.2.1, track.2.2, team, speed_mps,
          distance_meters, new_total⟩]
      last_player_positions := fun i =>
        if i = track.1 then some track.2 else mc.last_player_positions i
      player_total_distances := fun i =>
        if i = track.1 then some new_total else mc.player_total_distances i
      last_player_frame_counts := fun i =>
        if i = track.1 then some frame_count else mc.last_player_frame_counts i
      player_frame_counts := fun i =>
        if i = track.1 then some ((mc.player_frame_counts track.1).getD 0 + 1)
        else mc.player_frame_counts i }
  | _, _ =>
    { mc with
      player_metrics := mc.player_metrics ++
        [⟨frame_count, track.1, track.2.1, track.2.2, team, 0, 0, 0⟩]
      last_player_positions := fun i =>
        if i = track.1 then some track.2 else mc.last_player_positions i
      player_total_distances := fun i =>
        if i = track.1 then some 0 else mc.player_total_distances i
      last_player_frame_counts := fun i =>
        if i = track.1 then some frame_count else mc.last_player_frame_counts i
      player_frame_counts := fun i =>
        if i = track.1 then some ((mc.player_frame_counts track.1).getD 0 + 1)
        else mc.player_frame_counts i }

/-- Embedding of `MetricsCalculator::process_frame`. -/
noncomputable def MetricsCalculator.process_frame (mc : MetricsCalculator)
    (frame_count : ℤ) (fps : ℝ) (player_tracks : List (ℤ × (ℝ × ℝ)))
    (ball_track : ℤ × (ℝ × ℝ)) (team_assignments : ℤ → Option String) :
    MetricsCalculator :=
  let mc1 := { mc with video_fps := if 0 < fps then fps else mc.video_fps }
  let mc2 := player_tracks.foldl
    (fun m tr => processPlayerTrack m frame_count fps team_assignments tr) mc1
  if ball_track.1 ≠ -1 then
    { mc2 with ball_metrics := mc2.ball_metrics ++
        [⟨frame_count, ball_track.2.1, ball_track.2.2⟩] }
  else mc2

/-- The aggregator state after one first-appearance row for id 7 at
position `(0, 0)`, frame 1, 30 fps. -/
noncomputable def mcW : MetricsCalculator :=
  processPlayerTrack MetricsCalculator.new 1 30 (fun _ => none) (7, (0, 0))

/-! ## Batch orchestration (`AnalysisEngineServiceImpl::AnalyzeVideo`,
service.cpp)

The gRPC call is embedded as a pure function of its environment: whether the
video opens, its fps and frame count, the per-frame detector outputs and
images, the request's confidence threshold, the per-frame cancellation
signal (`context->IsCancelled()`, polled after each processed frame), and
the calibration.  Responses record status and progress (messages and the
result payload are formatting).  Whether team assignment
(`assign_teams`) and the CSV export (`save_to_csv`) ran on the exit path
taken is recorded as two flags; collaborator exceptions have no counterpart
in the pure embedding. -/

/-- The gRPC status codes `AnalyzeVideo` can return. -/
inductive GrpcCode where
  | ok
  | cancelled
  | notFound
  | internal
  deriving DecidableEq, Repr

/-- One written `VideoResponse`, reduced to job status and progress. -/
structure Response where
  status : String
  progress : ℚ
  deriving DecidableEq, Repr

/-- The environment of one `AnalyzeVideo` call. -/
structure BatchEnv where
  video_opens : Bool
  fps0 : ℚ
  total_frames : ℤ
  frames : List (List Detection × Frame)
  confidence_threshold : ℚ
  cancel : ℕ → Bool
  calib : Calibration

/-- The outcome of one `AnalyzeVideo` call. -/
structure RunResult where
  responses : List Response
  ret : GrpcCode
  ranAssignTeams : Bool
  ranSave : Bool

/-- The mutable state threaded through the per-frame loop. -/
structure LoopState where
  player_tracker : PlayerTracker
  ball_tracker : BallTracker
  metrics : MetricsCalculator
  responses : List Response

/-- The class/confidence split of the detector output (player = class 0,
ball = class 32, confidence at least the request's threshold). -/
def splitDetections (dets : List Detection) (thr : ℚ) :
    List Detection × List Detection :=
  (dets.filter fun d => d.class_id == 0 && decide (thr ≤ d.confidence),
   dets.filter fun d => d.class_id == 32 && decide (thr ≤ d.confidence))

/-- A tracked position handed to the metrics aggregator. -/
noncomputable def toRealPos (p : Point2) : ℝ × ℝ := ((p.x : ℝ), (p.y : ℝ))

/-- One iteration of the `AnalyzeVideo` frame loop (frame index `idx`,
starting at 1): detect/split, update both trackers, transform to real-world
coordinates, aggregate metrics, and emit a progress update every 30
frames. -/
noncomputable def analyzeStep (env : BatchEnv) (video_fps : ℚ) (idx : ℕ)
    (fd : List Detection × Frame) (st : LoopState) : LoopState :=
  let pd := (splitDetections fd.1 env.confidence_threshold).1
  let bd := (splitDetections fd.1 env.confidence_threshold).2
  let pt1 := st.player_tracker.update pd fd.2
  let bt1 := st.ball_tracker.update bd
  let rwPlayers := (env.calib.transformList pt1.get_tracks).map
    (fun ip => (ip.1, toRealPos ip.2))
  let bpair := env.calib.transform bt1.get_track
  let m1 := st.metrics.process_frame (idx : ℤ) ((video_fps : ℚ) : ℝ)
    rwPlayers (bpair.1, toRealPos bpair.2) pt1.get_team_assignments
  let resp1 := if idx % 30 == 0 then
      st.responses ++ [⟨"PROCESSING", (idx : ℚ) / (env.total_frames : ℚ)⟩]
    else st.responses
  ⟨pt1, bt1, m1, resp1⟩

/-- The `AnalyzeVideo` frame loop.  After each processed frame the
cancellation signal is polled; if set, the call returns `CANCELLED` at once,
running neither team assignment nor export.  At end of stream the finalise
path (team assignment, CSV export, `COMPLETED` response) runs. -/
noncomputable def analyzeLoop (env : BatchEnv) (video_fps : ℚ) :
    ℕ → List (List Detection × Frame) → LoopState → RunResult
  | _, [], st =>
    ⟨st.responses ++ [⟨"COMPLETED", 1⟩], GrpcCode.ok, true, true⟩
  | idx, fd :: rest, st =>
    let st1 := analyzeStep env video_fps (idx + 1) fd st
    if env.cancel (idx + 1) then
      ⟨st1.responses, GrpcCode.cancelled, false, false⟩
    else
      analyzeLoop env video_fps (idx + 1) rest st1

/-- Embedding of `AnalyzeVideo`: initial `PENDING` write; `FAILED` +
`NOT_FOUND` when the video cannot be opened; otherwise the frame loop over
fresh trackers and aggregator, with the fps defaulted to 30 when the source
reports 0. -/
noncomputable def AnalyzeVideo (env : BatchEnv) : RunResult :=
  let initial : List Response := [⟨"PENDING", 0⟩]
  if env.video_opens = false then
    ⟨initial ++ [⟨"FAILED", 0⟩], GrpcCode.notFound, false, false⟩
  else
    let video_fps := if env.fps0 = 0 then 30 else env.fps0
    analyzeLoop env video_fps 0 env.frames
      ⟨PlayerTracker.new, BallTracker.new, MetricsCalculator.new, initial⟩

/-! ## Lemmas and claim theorems -/

/-- C10: on an occluded frame of an active ball track (no detection selected,
occlusion counter at most 10 after incrementing), `BallTracker::update`
applies the constant-velocity prediction twice to the filter state in that
single call, so `get_track` reports a position advanced by two time steps. -/
theorem ball_occlusion_double_predict (bt : BallTracker) (dets : List Detection)
    (ht : bt.is_tracking = true) (hsel : (selectBestBall dets).2 = none)
    (hc : bt.frames_since_detection + 1 ≤ 10) :
    (bt.update dets).kf = (bt.kf.predict.2).predict.2 ∧
    (bt.update dets).get_track =
      (0, ⟨bt.kf.statePost 0 + 2 * bt.kf.statePost 2,
           bt.kf.statePost 1 + 2 * bt.kf.statePost 3⟩) := by
  have hnotdrop : ¬ max_frames_to_skip_ball < bt.frames_since_detection + 1 := by
    unfold max_frames_to_skip_ball; omega
  unfold BallTracker.update BallTracker.get_track
  rw [hsel]
  simp only [ht, if_true, if_neg hnotdrop]
  have hF : ∀ v : Fin 4 → ℚ, kfF.mulVec v 0 = v 0 + v 2 ∧
      kfF.mulVec v 1 = v 1 + v 3 ∧ kfF.mulVec v 2 = v 2 ∧
      kfF.mulVec v 3 = v 3 := by
    intro v
    refine ⟨?_, ?_, ?_, ?_⟩ <;>
      simp [kfF, Matrix.mulVec, Matrix.dotProduct, Fin.sum_univ_four]
  constructor
  · trivial
  · simp only [KalmanFilter.predict]
    refine congrArg _ ?_
    have h0 : (kfF.mulVec (kfF.mulVec bt.kf.statePost)) 0
        = bt.kf.statePost 0 + 2 * bt.kf.statePost 2 := by
      rw [(hF _).1, (hF _).1, (hF _).2.2.1]; ring
    have h1 : (kfF.mulVec (kfF.mulVec bt.kf.statePost)) 1
        = bt.kf.statePost 1 + 2 * bt.kf.statePost 3 := by
      rw [(hF _).2.1, (hF _).2.1, (hF _).2.2.2]; ring
    rw [← h0, ← h1]

/-- Witness for C10: a concrete active track with velocity `(1, 2)` at
position `(5, 7)` reports position `(7, 11)` after one occluded update. -/
theorem ball_occlusion_double_predict_witness :
    (BallTracker.update
      ⟨{ statePre := fun _ => 0,
         statePost := fun i => if i = 0 then 5 else if i = 1 then 7
           else if i = 2 then 1 else 2,
         errorCovPre := 0, errorCovPost := 1 }, true, 3, (0, ⟨5, 7⟩)⟩
      []).get_track
    = (0, ⟨(5 : ℚ) + 2 * 1, (7 : ℚ) + 2 * 2⟩) := by
  have h := ball_occlusion_double_predict
    ⟨{ statePre := fun _ => 0,
       statePost := fun i => if i = 0 then 5 else if i = 1 then 7
         else if i = 2 then 1 else 2,
       errorCovPre := 0, errorCovPost := 1 }, true, 3, (0, ⟨5, 7⟩)⟩
    [] rfl rfl (by norm_num)
  exact h.2

lemma committedMatchesAux_lb :
    ∀ (l : List (Track × Option ℕ)) (i : ℕ) (e : ℕ × ℕ),
      e ∈ committedMatchesAux i l → i ≤ e.1 := by
  intro l
  induction l with
  | nil => intro i e he; simp [committedMatchesAux] at he
  | cons p rest ih =>
    intro i e he
    rcases p with ⟨t, o⟩
    cases o with
    | none =>
      rw [committedMatchesAux] at he
      have := ih (i + 1) e he
      omega
    | some j =>
      rw [committedMatchesAux] at he
      rcases List.mem_cons.mp he with h | h
      · subst h; simp
      · have := ih (i + 1) e h
        omega

lemma bestMatchAux_notMem (box : Rect) (matched : Finset ℕ) :
    ∀ (dets : List Detection) (j : ℕ) (acc : ℚ × ℤ),
      (0 < acc.1 → acc.2.toNat ∉ matched) →
      0 < (bestMatchAux box matched j dets acc).1 →
      (bestMatchAux box matched j dets acc).2.toNat ∉ matched := by
  intro dets
  induction dets with
  | nil => intro j acc hacc hpos; exact hacc hpos
  | cons d rest ih =>
    intro j acc hacc hpos
    rw [bestMatchAux] at hpos ⊢
    refine ih (j + 1) _ ?_ hpos
    by_cases hm : j ∈ matched
    · simpa [hm] using hacc
    · by_cases hlt : acc.1 < calculate_iou box d.box
      · simp only [if_neg hm, if_pos hlt]
        intro _
        simpa using hm
      · simpa [hm, hlt] using hacc

lemma bestMatch_notMem (box : Rect) (dets : List Detection) (matched : Finset ℕ) :
    0 < (bestMatch box dets matched).1 →
    (bestMatch box dets matched).2.toNat ∉ matched := by
  unfold bestMatch
  exact bestMatchAux_notMem box matched dets 0 (0, -1)
    (fun h => absurd h (by norm_num))

lemma iou_threshold_pos : 0 < iou_threshold := by
  rw [iou_threshold, Rat.mkRat_eq_div]; norm_num

lemma committedMatches_notMem (dets : List Detection) (frame : Frame) :
    ∀ (ts : List Track) (matched : Finset ℕ) (k : ℕ) (e : ℕ × ℕ),
      e ∈ committedMatchesAux k (associateTracks dets frame ts matched).1 →
      e.2 ∉ matched := by
  intro ts
  induction ts with
  | nil =>
    intro matched k e he
    simp [associateTracks, committedMatchesAux] at he
  | cons t rest ih =>
    intro matched k e he
    rw [associateTracks] at he
    by_cases hb : iou_threshold < (bestMatch t.last_bbox dets matched).1
    · rw [if_pos hb] at he
      cases hd : dets[(bestMatch t.last_bbox dets matched).2.toNat]? with
      | some d =>
        rw [hd] at he
        rw [committedMatchesAux] at he
        rcases List.mem_cons.mp he with h | h
        · subst h
          exact bestMatch_notMem t.last_bbox dets matched
            (lt_trans iou_threshold_pos hb)
        · have := ih _ (k + 1) e h
          intro hmem
          exact this (Finset.mem_insert_of_mem hmem)
      | none =>
        rw [hd] at he
        rw [committedMatchesAux] at he
        exact ih matched (k + 1) e he
    · rw [if_neg hb] at he
      rw [committedMatchesAux] at he
      exact ih matched (k + 1) e he

lemma committedMatches_pairwise (dets : List Detection) (frame : Frame) :
    ∀ (ts : List Track) (matched : Finset ℕ) (k : ℕ),
      List.Pairwise (fun a b : ℕ × ℕ => a.1 ≠ b.1 ∧ a.2 ≠ b.2)
        (committedMatchesAux k (associateTracks dets frame ts matched).1) := by
  intro ts
  induction ts with
  | nil =>
    intro matched k
    simp [associateTracks, committedMatchesAux]
  | cons t rest ih =>
    intro matched k
    rw [associateTracks]
    by_cases hb : iou_threshold < (bestMatch t.last_bbox dets matched).1
    · rw [if_pos hb]
      cases hd : dets[(bestMatch t.last_bbox dets matched).2.toNat]? with
      | some d =>
        refine List.Pairwise.cons ?_ (ih _ (k + 1))
        intro e he
        constructor
        · have := committedMatchesAux_lb _ (k + 1) e he
          omega
        · have := committedMatches_notMem dets frame rest _ (k + 1) e he
          intro hj
          exact this (hj ▸ Finset.mem_insert_self _ matched)
      | none =>
        exact ih matched (k + 1)
    · rw [if_neg hb]
      exact ih matched (k + 1)

/-- C4: within one `PlayerTracker::update` call, the greedy IOU association
commits each detection index to at most one track and each track to at most
one detection index: the committed match set is an injective partial map
from track positions to detection indices. -/
theorem greedy_matching_injective (pt : PlayerTracker) (dets : List Detection)
    (frame : Frame) :
    ∀ p ∈ committedMatches
        (associateTracks dets frame (predictTracks pt.tracks) ∅).1,
    ∀ q ∈ committedMatches
        (associateTracks dets frame (predictTracks pt.tracks) ∅).1,
      (p.1 = q.1 → p = q) ∧ (p.2 = q.2 → p = q) := by
  intro p hp q hq
  have hpw := committedMatches_pairwise dets frame (predictTracks pt.tracks) ∅ 0
  have hsym : Symmetric (fun a b : ℕ × ℕ => a.1 ≠ b.1 ∧ a.2 ≠ b.2) :=
    fun a b h => ⟨h.1.symm, h.2.symm⟩
  have hall := hpw.forall hsym
  constructor
  · intro h1
    by_contra hne
    exact (hall hp hq hne).1 h1
  · intro h2
    by_contra hne
    exact (hall hp hq hne).2 h2

lemma associateTracks_forall2 (dets : List Detection) (frame : Frame) :
    ∀ (ts : List Track) (matched : Finset ℕ),
      List.Forall₂ (fun (pr : Track × Option ℕ) (t : Track) =>
          (pr.2 = none → pr.1 = t) ∧
          (pr.2 ≠ none → pr.1.frames_since_update = 0))
        (associateTracks dets frame ts matched).1 ts := by
  intro ts
  induction ts with
  | nil => intro matched; simp [associateTracks]
  | cons t rest ih =>
    intro matched
    rw [associateTracks]
    by_cases hb : iou_threshold < (bestMatch t.last_bbox dets matched).1
    · rw [if_pos hb]
      cases hd : dets[(bestMatch t.last_bbox dets matched).2.toNat]? with
      | some d =>
        exact List.Forall₂.cons
          ⟨fun h => Option.noConfusion h, fun _ => rfl⟩ (ih _)
      | none =>
        exact List.Forall₂.cons ⟨fun _ => rfl, fun h => absurd rfl h⟩ (ih _)
    · rw [if_neg hb]
      exact List.Forall₂.cons ⟨fun _ => rfl, fun h => absurd rfl h⟩ (ih _)

/-- C3: in every `PlayerTracker::update` call, a pre-existing track matched
to a detection ends the association pass with `frames_since_update = 0`,
a pre-existing unmatched track ends it with exactly its previous value plus
one, and the tracks alive after the call are exactly the associated tracks
surviving the staleness filter plus the freshly created ones. -/
theorem player_fsu_reset_and_increment (pt : PlayerTracker)
    (dets : List Detection) (frame : Frame) :
    List.Forall₂ (fun (pr : Track × Option ℕ) (t0 : Track) =>
        (pr.2 ≠ none → pr.1.frames_since_update = 0) ∧
        (pr.2 = none →
          pr.1.frames_since_update = t0.frames_since_update + 1))
      (associateTracks dets frame (predictTracks pt.tracks) ∅).1 pt.tracks ∧
    (pt.update dets frame).tracks
      = removeStale
          ((associateTracks dets frame (predictTracks pt.tracks) ∅).1.map
            Prod.fst)
        ++ (createNewTracksAux frame
            (associateTracks dets frame (predictTracks pt.tracks) ∅).2 0
            pt.next_track_id dets).1 := by
  constructor
  · have h := associateTracks_forall2 dets frame (predictTracks pt.tracks) ∅
    unfold predictTracks at h
    rw [List.forall₂_map_right_iff] at h
    refine List.Forall₂.imp ?_ h
    intro pr t0 hpr
    refine ⟨hpr.2, fun hn => ?_⟩
    rw [hpr.1 hn]
  · rfl

/-- Witness for C3: a concrete application of the decomposition part. -/
theorem player_fsu_reset_and_increment_witness :
    (PlayerTracker.update ⟨1, [trackW], fun _ => none⟩ [] frameW).tracks
      = removeStale
          ((associateTracks [] frameW (predictTracks [trackW]) ∅).1.map
            Prod.fst)
        ++ (createNewTracksAux frameW
            (associateTracks [] frameW (predictTracks [trackW]) ∅).2 0 1 []).1 :=
  (player_fsu_reset_and_increment ⟨1, [trackW], fun _ => none⟩ [] frameW).2

/-- Witness for C4: in a concrete one-track, one-detection update the match
`(0, 0)` is committed, and the injectivity theorem applies to it. -/
theorem greedy_matching_injective_witness :
    ((0, 0) : ℕ × ℕ) ∈ committedMatches
        ((associateTracks [detW] frameW (predictTracks [trackW]) ∅).1) ∧
    ((0, 0) : ℕ × ℕ) = (0, 0) := by
  have hmem : ((0, 0) : ℕ × ℕ) ∈ committedMatches
      ((associateTracks [detW] frameW (predictTracks [trackW]) ∅).1) := by
    norm_num [committedMatches, committedMatchesAux, associateTracks, bestMatch,
      bestMatchAux, calculate_iou, predictTracks, detectionBottomCenter,
      boxInFrame, KalmanFilter.predict, kfF, Matrix.mulVec, Matrix.dotProduct,
      Fin.sum_univ_four, trackW, detW, frameW, KalmanFilter.new]
  exact ⟨hmem,
    (greedy_matching_injective ⟨1, [trackW], fun _ => none⟩ [detW] frameW
      (0, 0) hmem (0, 0) hmem).1 rfl⟩

/-- C5: a player track is removed by `PlayerTracker::update` iff its
`frames_since_update` strictly exceeds 5; the ball track is dropped (id
reported `-1`) by `BallTracker::update` iff its occlusion counter strictly
exceeds 10; and a previously-tracked player unmatched for 6 consecutive
updates is present in `get_tracks` after the 5th call but absent after the
6th. -/
theorem removal_thresholds_strict :
    (∀ (ts : List Track) (t : Track),
        t ∈ removeStale ts ↔
          t ∈ ts ∧ ¬ max_frames_to_skip_players < t.frames_since_update) ∧
    (∀ (bt : BallTracker) (dets : List Detection),
        bt.is_tracking = true → (selectBestBall dets).2 = none →
        ((bt.update dets).track.1 = -1 ↔
          max_frames_to_skip_ball < bt.frames_since_detection + 1)) ∧
    ((fun p => PlayerTracker.update p [] frameW)^[5]
        (PlayerTracker.new.update [detW] frameW)).get_tracks ≠ [] ∧
    ((fun p => PlayerTracker.update p [] frameW)^[6]
        (PlayerTracker.new.update [detW] frameW)).get_tracks = [] := by
  refine ⟨?_, ?_, ?_, ?_⟩
  · intro ts t
    simp [removeStale, List.mem_filter]
  · intro bt dets ht hsel
    unfold BallTracker.update
    rw [hsel]
    simp only [ht, if_true]
    by_cases hdrop : max_frames_to_skip_ball < bt.frames_since_detection + 1
    · rw [if_pos hdrop]
      simp only [Bool.false_eq_true, if_false]
      exact ⟨fun _ => hdrop, fun _ => trivial⟩
    · rw [if_neg hdrop]
      simp only [ht, if_true]
      exact ⟨fun habs => absurd habs (by decide), fun hlt => absurd hlt hdrop⟩
  · decide
  · decide

/-- Witness for C5's conditional parts at concrete inputs: an active ball
track at occlusion counter 10 is dropped on the next empty update, and a
fresh track is kept by the staleness filter. -/
theorem removal_thresholds_strict_witness :
    (BallTracker.update ⟨KalmanFilter.new, true, 10, (0, ⟨0, 0⟩)⟩ []).track.1
      = -1 ∧
    trackW ∈ removeStale [trackW] :=
  ⟨(removal_thresholds_strict.2.1 ⟨KalmanFilter.new, true, 10, (0, ⟨0, 0⟩)⟩
      [] rfl rfl).mpr (by decide),
   (removal_thresholds_strict.1 [trackW] trackW).mpr
     ⟨List.mem_singleton.mpr rfl, by decide⟩⟩

lemma vecLtB_asymm : ∀ as bs, vecLtB as bs = true → vecLtB bs as = false := by
  intro as
  induction as with
  | nil =>
    intro bs h
    cases bs with
    | nil => simp [vecLtB] at h
    | cons b bs => simp [vecLtB]
  | cons a as ih =>
    intro bs h
    cases bs with
    | nil => simp [vecLtB] at h
    | cons b bs =>
      rw [vecLtB] at h ⊢
      by_cases hab : a < b
      · have hba : ¬ b < a := by omega
        simp [hab, hba]
      · by_cases hba : b < a
        · simp [hab, hba] at h
        · simp only [if_neg hab, if_neg hba] at h ⊢
          exact ih bs h

lemma vecLtB_connex : ∀ as bs, vecLtB as bs = false → vecLtB bs as = false →
    as = bs := by
  intro as
  induction as with
  | nil =>
    intro bs h1 h2
    cases bs with
    | nil => rfl
    | cons b bs => simp [vecLtB] at h1
  | cons a as ih =>
    intro bs h1 h2
    cases bs with
    | nil => simp [vecLtB] at h2
    | cons b bs =>
      rw [vecLtB] at h1 h2
      by_cases hab : a < b
      · simp [hab] at h1
      · by_cases hba : b < a
        · simp [hab, hba] at h2
        · have : a = b := by omega
          subst this
          simp only [lt_irrefl, if_neg (lt_irrefl a)] at h1 h2
          rw [ih bs h1 h2]

lemma vecLtB_trans : ∀ as bs cs, vecLtB as bs = true → vecLtB bs cs = true →
    vecLtB as cs = true := by
  intro as
  induction as with
  | nil =>
    intro bs cs h1 h2
    cases bs with
    | nil => simp [vecLtB] at h1
    | cons b bs =>
      cases cs with
      | nil => simp [vecLtB] at h2
      | cons c cs => simp [vecLtB]
  | cons a as ih =>
    intro bs cs h1 h2
    cases bs with
    | nil => simp [vecLtB] at h1
    | cons b bs =>
      cases cs with
      | nil => simp [vecLtB] at h2
      | cons c cs =>
        rw [vecLtB] at h1 h2 ⊢
        by_cases hab : a < b
        · by_cases hbc : b < c
          · have : a < c := by omega
            simp [this]
          · by_cases hcb : c < b
            · simp [hbc, hcb] at h2
            · have : b = c := by omega
              subst this
              simp [hab]
        · by_cases hba : b < a
          · simp [hab, hba] at h1
          · have hab2 : a = b := by omega
            subst hab2
            simp only [if_neg hab, if_neg (lt_irrefl a)] at h1
            by_cases hac : a < c
            · simp [hac]
            · by_cases hca : c < a
              · simp [hac, hca] at h2
              · have : a = c := by omega
                subst this
                simp only [if_neg hac, if_neg (lt_irrefl a)] at h2 ⊢
                exact ih bs cs h1 h2

lemma clusterLtB_asymm (a b : ℕ × List ℤ) :
    clusterLtB a b = true → clusterLtB b a = false := by
  unfold clusterLtB
  by_cases h1 : a.1 < b.1
  · have h2 : ¬ b.1 < a.1 := by omega
    simp [h1, h2]
  · by_cases h2 : b.1 < a.1
    · simp [h1, h2]
    · simp only [if_neg h1, if_neg h2]
      exact vecLtB_asymm a.2 b.2

lemma clusterLtB_trans (a b c : ℕ × List ℤ) :
    clusterLtB a b = true → clusterLtB b c = true → clusterLtB a c = true := by
  unfold clusterLtB
  by_cases hab : a.1 < b.1
  · by_cases hbc : b.1 < c.1
    · have : a.1 < c.1 := by omega
      simp [this]
    · by_cases hcb : c.1 < b.1
      · simp [hbc, hcb]
      · have : b.1 = c.1 := by omega
        have hac : a.1 < c.1 := by omega
        simp [hac]
  · by_cases hba : b.1 < a.1
    · simp [hab, hba]
    · have heq : a.1 = b.1 := by omega
      by_cases hbc : b.1 < c.1
      · have hac : a.1 < c.1 := by omega
        simp [hac]
      · by_cases hcb : c.1 < b.1
        · simp [hbc, hcb]
        · have hac : ¬ a.1 < c.1 := by omega
          have hca : ¬ c.1 < a.1 := by omega
          simp only [if_neg hab, if_neg hba, if_neg hbc, if_neg hcb,
            if_neg hac, if_neg hca]
          exact vecLtB_trans a.2 b.2 c.2

lemma clusterLtB_connex (a b : ℕ × List ℤ) :
    clusterLtB a b = false → clusterLtB b a = false → a = b := by
  intro hab hba
  unfold clusterLtB at hab hba
  by_cases h1 : a.1 < b.1
  · simp [h1] at hab
  · by_cases h2 : b.1 < a.1
    · simp [h2] at hba
    · have hfst : a.1 = b.1 := by omega
      have hsnd : a.2 = b.2 :=
        vecLtB_connex a.2 b.2 (by simpa [h1, h2] using hab)
          (by simpa [h1, h2] using hba)
      exact Prod.ext hfst hsnd

lemma clusterGe_total : ∀ a b : ℕ × List ℤ, clusterGe a b ∨ clusterGe b a := by
  intro a b
  unfold clusterGe
  by_cases h : clusterLtB a b = true
  · exact Or.inr (clusterLtB_asymm a b h)
  · exact Or.inl (Bool.eq_false_iff.mpr h)

lemma clusterGe_trans : ∀ a b c : ℕ × List ℤ,
    clusterGe a b → clusterGe b c → clusterGe a c := by
  intro a b c hab hbc
  unfold clusterGe at hab hbc ⊢
  by_cases hac : clusterLtB a c = true
  · exfalso
    by_cases hcb : clusterLtB c b = true
    · have habt := clusterLtB_trans a c b hac hcb
      simp [hab] at habt
    · have hcbf : clusterLtB c b = false := Bool.eq_false_iff.mpr hcb
      have hbceq : b = c := clusterLtB_connex b c hbc hcbf
      rw [← hbceq] at hac
      simp [hab] at hac
  · exact Bool.eq_false_iff.mpr hac

lemma labelClustersAux_eq_spec :
    ∀ (cs : List (ℕ × List ℤ)) (i : ℕ) (A : List String) (r : Bool),
      (("Team A" ∈ A) ↔ 1 ≤ i) →
      (("Team B" ∈ A) ↔ 2 ≤ i) →
      (("Referee" ∈ A) ↔ r = true) →
      labelClustersAux i A cs = specAssignLabels i r cs := by
  intro cs
  induction cs with
  | nil => intro i A r _ _ _; rfl
  | cons c rest ih =>
    intro i A r hA hB hR
    simp only [labelClustersAux, specAssignLabels]
    rcases Nat.lt_or_ge i 2 with hlt | hge
    · interval_cases i
      · have hnA : "Team A" ∉ A := by
          intro h; have := hA.mp h; omega
        rw [if_pos (show (0 : ℕ) = 0 ∧ "Team A" ∉ A from ⟨rfl, hnA⟩),
          if_pos (show (0 : ℕ) = 0 from rfl),
          if_neg (show ¬ ("Team A" : String) = "Unknown" by decide)]
        congr 1
        have hd : decide (2 ≤ (0 : ℕ)) = false := by decide
        rw [hd, Bool.false_and, Bool.or_false]
        refine ih 1 _ r ?_ ?_ ?_
        · exact iff_of_true (List.mem_cons_self _ _) le_rfl
        · rw [List.mem_cons]
          constructor
          · rintro (h | h)
            · exact absurd h (by decide)
            · have := hB.mp h; omega
          · intro h; omega
        · rw [List.mem_cons]
          constructor
          · rintro (h | h)
            · exact absurd h (by decide)
            · exact hR.mp h
          · intro h; exact Or.inr (hR.mpr h)
      · have hnB : "Team B" ∉ A := by
          intro h; have := hB.mp h; omega
        rw [if_neg (show ¬ ((1 : ℕ) = 0 ∧ "Team A" ∉ A) from fun h => by omega),
          if_pos (show (1 : ℕ) = 1 ∧ "Team B" ∉ A from ⟨rfl, hnB⟩),
          if_neg (show ¬ (1 : ℕ) = 0 from by omega),
          if_pos (show (1 : ℕ) = 1 from rfl),
          if_neg (show ¬ ("Team B" : String) = "Unknown" by decide)]
        congr 1
        have hd : decide (2 ≤ (1 : ℕ)) = false := by decide
        rw [hd, Bool.false_and, Bool.or_false]
        refine ih 2 _ r ?_ ?_ ?_
        · rw [List.mem_cons]
          exact iff_of_true (Or.inr (hA.mpr (by omega))) (by omega)
        · exact iff_of_true (List.mem_cons_self _ _) le_rfl
        · rw [List.mem_cons]
          constructor
          · rintro (h | h)
            · exact absurd h (by decide)
            · exact hR.mp h
          · intro h; exact Or.inr (hR.mpr h)
    · have hne0c : ¬ (i = 0 ∧ "Team A" ∉ A) := fun h => absurd h.1 (by omega)
      have hne1c : ¬ (i = 1 ∧ "Team B" ∉ A) := fun h => absurd h.1 (by omega)
      rw [if_neg hne0c, if_neg hne1c,
        if_neg (show ¬ i = 0 from by omega), if_neg (show ¬ i = 1 from by omega)]
      by_cases hlen : c.2.length ≤ 2
      · by_cases href : r = true
        · have hmemR : "Referee" ∈ A := hR.mpr href
          rw [if_neg (show ¬ (c.2.length ≤ 2 ∧ "Referee" ∉ A) from
                fun h => h.2 hmemR),
            if_neg (show ¬ (c.2.length ≤ 2 ∧ r = false) from
                fun h => by rw [href] at h; exact absurd h.2 (by simp)),
            if_pos (show ("Unknown" : String) = "Unknown" from rfl)]
          congr 1
          rw [href, Bool.true_or]
          refine ih (i + 1) A true ?_ ?_ ?_
          · exact iff_of_true (hA.mpr (by omega)) (by omega)
          · exact iff_of_true (hB.mpr (by omega)) (by omega)
          · exact iff_of_true hmemR rfl
        · have hrf : r = false := Bool.eq_false_iff.mpr href
          have hnR : "Referee" ∉ A := fun h => href (hR.mp h)
          rw [if_pos (show c.2.length ≤ 2 ∧ "Referee" ∉ A from ⟨hlen, hnR⟩),
            if_pos (show c.2.length ≤ 2 ∧ r = false from ⟨hlen, hrf⟩),
            if_neg (show ¬ ("Referee" : String) = "Unknown" by decide)]
          congr 1
          have harg : (r || (decide (2 ≤ i) && decide (c.2.length ≤ 2)))
              = true := by
            rw [decide_eq_true hge, decide_eq_true hlen]; simp
          rw [harg]
          refine ih (i + 1) _ true ?_ ?_ ?_
          · rw [List.mem_cons]
            exact iff_of_true (Or.inr (hA.mpr (by omega))) (by omega)
          · rw [List.mem_cons]
            exact iff_of_true (Or.inr (hB.mpr (by omega))) (by omega)
          · exact iff_of_true (List.mem_cons_self _ _) rfl
      · rw [if_neg (show ¬ (c.2.length ≤ 2 ∧ "Referee" ∉ A) from
            fun h => hlen h.1),
          if_neg (show ¬ (c.2.length ≤ 2 ∧ r = false) from fun h => hlen h.1),
          if_pos (show ("Unknown" : String) = "Unknown" from rfl)]
        congr 1
        have harg : (r || (decide (2 ≤ i) && decide (c.2.length ≤ 2))) = r := by
          rw [decide_eq_false hlen]; simp
        rw [harg]
        refine ih (i + 1) A r ?_ ?_ hR
        · exact iff_of_true (hA.mpr (by omega)) (by omega)
        · exact iff_of_true (hB.mpr (by omega)) (by omega)

/-- C6: `assign_teams` ranks the k-means clusters by descending member count
and labels them exactly by the specification's rule — 1st-ranked "Team A",
2nd-ranked "Team B", the first remaining cluster with at most 2 members
"Referee" (assigned at most once), all others "Unknown" — and on 6 tracks
clustered 3/2/1 it labels the size-3 cluster "Team A", the size-2 cluster
"Team B" and the singleton "Referee". -/
theorem assign_teams_ranking_and_labels :
    (∀ (tracks : List Track) (labels : List ℕ),
        List.Pairwise (fun a b : ℕ × List ℤ => b.1 ≤ a.1)
          (sortedClusters tracks labels)) ∧
    (∀ cs : List (ℕ × List ℤ),
        labelClustersAux 0 [] cs = specAssignLabels 0 false cs) ∧
    ((trackerC6.assign_teams [0, 0, 0, 1, 1, 2]).team_assignments 0
        = some "Team A" ∧
     (trackerC6.assign_teams [0, 0, 0, 1, 1, 2]).team_assignments 1
        = some "Team A" ∧
     (trackerC6.assign_teams [0, 0, 0, 1, 1, 2]).team_assignments 2
        = some "Team A" ∧
     (trackerC6.assign_teams [0, 0, 0, 1, 1, 2]).team_assignments 3
        = some "Team B" ∧
     (trackerC6.assign_teams [0, 0, 0, 1, 1, 2]).team_assignments 4
        = some "Team B" ∧
     (trackerC6.assign_teams [0, 0, 0, 1, 1, 2]).team_assignments 5
        = some "Referee") := by
  refine ⟨?_, ?_, ?_⟩
  · intro tracks labels
    haveI : IsTotal (ℕ × List ℤ) clusterGe := ⟨clusterGe_total⟩
    haveI : IsTrans (ℕ × List ℤ) clusterGe := ⟨clusterGe_trans⟩
    have hs := List.sorted_insertionSort clusterGe
      ((clusterIds labels).map fun c =>
        ((clusterMembers tracks labels c).length, clusterMembers tracks labels c))
    refine List.Pairwise.imp ?_ hs
    intro a b hge
    unfold clusterGe clusterLtB at hge
    by_cases h : a.1 < b.1
    · rw [if_pos h] at hge
      exact absurd hge (by simp)
    · omega
  · intro cs
    refine labelClustersAux_eq_spec cs 0 [] false ?_ ?_ ?_
    · exact iff_of_false (List.not_mem_nil _) (by omega)
    · exact iff_of_false (List.not_mem_nil _) (by omega)
    · exact iff_of_false (List.not_mem_nil _) (by simp)
  · refine ⟨?_, ?_, ?_, ?_, ?_, ?_⟩ <;> decide

/-- Witness for C6: the ranking part applied to the concrete 3/2/1 store. -/
theorem assign_teams_ranking_and_labels_witness :
    List.Pairwise (fun a b : ℕ × List ℤ => b.1 ≤ a.1)
      (sortedClusters trackerC6.tracks [0, 0, 0, 1, 1, 2]) :=
  assign_teams_ranking_and_labels.1 trackerC6.tracks [0, 0, 0, 1, 1, 2]

/-- C7: for a previously-seen track id, the appended row's distance is the
Euclidean distance from the last recorded position, elapsed time is
`(frameIndex - lastFrameIndex) / fps`, speed is distance over elapsed time
(0 when elapsed time is not positive), and the cumulative distance grows by
exactly that distance; a first appearance appends a row with distance and
speed 0 and initialises the cumulative distance to 0. -/
theorem metrics_row_speed_distance (mc : MetricsCalculator) (frame_count : ℤ)
    (fps : ℝ) (teams : ℤ → Option String) (tr : ℤ × (ℝ × ℝ)) :
    (∀ last_pos last_frame,
      mc.last_player_positions tr.1 = some last_pos →
      mc.last_player_frame_counts tr.1 = some last_frame →
      (processPlayerTrack mc frame_count fps teams tr).player_metrics
        = mc.player_metrics ++
          [⟨frame_count, tr.1, tr.2.1, tr.2.2,
            (match teams tr.1 with | some s => s | none => "Unknown"),
            (if 0 < ((frame_count : ℝ) - (last_frame : ℝ)) / fps
             then distR tr.2 last_pos /
               (((frame_count : ℝ) - (last_frame : ℝ)) / fps)
             else 0),
            distR tr.2 last_pos,
            (mc.player_total_distances tr.1).getD 0 + distR tr.2 last_pos⟩] ∧
      (processPlayerTrack mc frame_count fps teams tr).player_total_distances
          tr.1
        = some ((mc.player_total_distances tr.1).getD 0
            + distR tr.2 last_pos)) ∧
    ((mc.last_player_positions tr.1 = none ∨
        mc.last_player_frame_counts tr.1 = none) →
      (processPlayerTrack mc frame_count fps teams tr).player_metrics
        = mc.player_metrics ++
          [⟨frame_count, tr.1, tr.2.1, tr.2.2,
            (match teams tr.1 with | some s => s | none => "Unknown"),
            0, 0, 0⟩] ∧
      (processPlayerTrack mc frame_count fps teams tr).player_total_distances
          tr.1
        = some 0) := by
  constructor
  · intro last_pos last_frame h1 h2
    unfold processPlayerTrack
    rw [h1, h2]
    exact ⟨rfl, by simp⟩
  · intro h
    unfold processPlayerTrack
    cases hfp : mc.last_player_positions tr.1 with
    | none => exact ⟨rfl, by simp⟩
    | some p =>
      rcases h with h | h
      · rw [hfp] at h; cases h
      · rw [h]
        exact ⟨rfl, by simp⟩

/-- Witness for C7, the spec's own example: positions `(0,0)` at frame 1 and
`(3,4)` at frame 31 with 30 fps give per-frame distance 5, speed 5 m/s and
cumulative distance 5. -/
theorem metrics_row_speed_distance_witness :
    (processPlayerTrack mcW 31 30 (fun _ => none) (7, (3, 4))).player_metrics
      = mcW.player_metrics ++ [⟨31, 7, 3, 4, "Unknown", 5, 5, 5⟩] ∧
    (processPlayerTrack mcW 31 30 (fun _ => none)
        (7, (3, 4))).player_total_distances 7 = some 5 := by
  have h1 : mcW.last_player_positions 7 = some ((0 : ℝ), (0 : ℝ)) := rfl
  have h2 : mcW.last_player_frame_counts 7 = some 1 := rfl
  have h := (metrics_row_speed_distance mcW 31 30 (fun _ => none)
    (7, (3, 4))).1 ((0 : ℝ), (0 : ℝ)) 1 h1 h2
  have hd : distR ((3 : ℝ), (4 : ℝ)) ((0 : ℝ), (0 : ℝ)) = 5 := by
    unfold distR
    rw [show (((3 : ℝ), (4 : ℝ)).1 - ((0 : ℝ), (0 : ℝ)).1) ^ 2 +
        (((3 : ℝ), (4 : ℝ)).2 - ((0 : ℝ), (0 : ℝ)).2) ^ 2 = 5 ^ 2 by norm_num]
    exact Real.sqrt_sq (by norm_num)
  have hgetD : (mcW.player_total_distances 7).getD 0 = 0 := rfl
  have hdt : (((31 : ℤ) : ℝ) - ((1 : ℤ) : ℝ)) / 30 = 1 := by
    push_cast; norm_num
  constructor
  · refine h.1.trans ?_
    rw [hd, hgetD, hdt]
    norm_num
  · refine h.2.trans ?_
    rw [hd, hgetD]
    norm_num

lemma analyzeLoop_cancelled (env : BatchEnv) (video_fps : ℚ) :
    ∀ (frames : List (List Detection × Frame)) (idx : ℕ) (st : LoopState),
      (∃ k, 1 ≤ k ∧ k ≤ frames.length ∧ env.cancel (idx + k) = true) →
      (analyzeLoop env video_fps idx frames st).ret = GrpcCode.cancelled ∧
      (analyzeLoop env video_fps idx frames st).ranAssignTeams = false ∧
      (analyzeLoop env video_fps idx frames st).ranSave = false := by
  intro frames
  induction frames with
  | nil =>
    rintro idx st ⟨k, h1, h2, _⟩
    simp at h2
    omega
  | cons fd rest ih =>
    rintro idx st ⟨k, h1, h2, hc⟩
    rw [analyzeLoop]
    by_cases hcan : env.cancel (idx + 1) = true
    · simp [hcan]
    · rw [if_neg hcan]
      refine ih (idx + 1) _ ⟨k - 1, ?_, ?_, ?_⟩
      · rcases Nat.lt_or_ge k 2 with hk | hk
        · exfalso
          have : k = 1 := by omega
          subst this
          exact hcan hc
        · omega
      · simp at h2
        omega
      · have hidx : idx + 1 + (k - 1) = idx + k := by
          rcases Nat.lt_or_ge k 2 with hk | hk
          · exfalso
            have : k = 1 := by omega
            subst this
            exact hcan hc
          · omega
        rw [hidx]
        exact hc

/-- C2: when the cancellation signal is observed during the batch per-frame
loop, `AnalyzeVideo` stops the loop and returns the terminal `CANCELLED`
status — not `PROCESSING` — without running team assignment or metrics
export. -/
theorem analyze_video_cancelled (env : BatchEnv)
    (hopen : env.video_opens = true)
    (hcancel : ∃ k, 1 ≤ k ∧ k ≤ env.frames.length ∧ env.cancel k = true) :
    (AnalyzeVideo env).ret = GrpcCode.cancelled ∧
    (AnalyzeVideo env).ranAssignTeams = false ∧
    (AnalyzeVideo env).ranSave = false := by
  unfold AnalyzeVideo
  rw [hopen]
  simp only [Bool.true_eq_false, if_false]
  exact analyzeLoop_cancelled env _ env.frames 0 _
    (by simpa using hcancel)

/-- Witness for C2: a one-frame job whose cancellation signal is already set
ends `CANCELLED` with no team assignment and no export. -/
theorem analyze_video_cancelled_witness :
    (AnalyzeVideo ⟨true, 30, 1, [([], frameW)], 1/2, fun _ => true,
        ⟨none⟩⟩).ret = GrpcCode.cancelled ∧
    (AnalyzeVideo ⟨true, 30, 1, [([], frameW)], 1/2, fun _ => true,
        ⟨none⟩⟩).ranAssignTeams = false ∧
    (AnalyzeVideo ⟨true, 30, 1, [([], frameW)], 1/2, fun _ => true,
        ⟨none⟩⟩).ranSave = false :=
  analyze_video_cancelled _ rfl ⟨1, le_rfl, by simp, rfl⟩

/-- C8: the IOU function computes intersection over union and satisfies:
`iou(a,b) = iou(b,a)` for all boxes; `iou(a,a) = 1` for any non-degenerate
box; and `iou(a,b) = 0` exactly when the boxes do not overlap or either box
has zero area. -/
theorem iou_symm_self_one_nonoverlap_zero :
    (∀ a b : Rect, calculate_iou a b = calculate_iou b a) ∧
    (∀ a : Rect, 0 < a.width → 0 < a.height → calculate_iou a a = 1) ∧
    (∀ a b : Rect, (¬ a.overlaps b ∨ a.area = 0 ∨ b.area = 0) →
      calculate_iou a b = 0) := by
  refine ⟨?_, ?_, ?_⟩
  · intro a b
    simp only [calculate_iou]
    rw [max_comm a.x b.x, max_comm a.y b.y,
      min_comm (a.x + a.width) (b.x + b.width),
      min_comm (a.y + a.height) (b.y + b.height),
      add_comm (a.width * a.height) (b.width * b.height)]
  · intro a hw hh
    simp only [calculate_iou, max_self, min_self]
    have e1 : a.x + a.width - a.x = a.width := by ring
    have e2 : a.y + a.height - a.y = a.height := by ring
    rw [e1, e2, max_eq_right hw.le, max_eq_right hh.le]
    have harea : 0 < a.width * a.height := mul_pos hw hh
    have hcond : (0 : ℚ) <
        a.width * a.height + a.width * a.height - a.width * a.height := by
      linarith
    rw [if_pos hcond]
    have e3 : a.width * a.height + a.width * a.height - a.width * a.height
        = a.width * a.height := by ring
    rw [e3]
    exact div_self harea.ne'
  · intro a b h
    simp only [calculate_iou]
    have hinter :
        max 0 (min (a.x + a.width) (b.x + b.width) - max a.x b.x) *
          max 0 (min (a.y + a.height) (b.y + b.height) - max a.y b.y) = 0 := by
      rcases h with hno | ha | hb
      · unfold Rect.overlaps at hno
        push_neg at hno
        by_cases hx : max a.x b.x < min (a.x + a.width) (b.x + b.width)
        · have hy := hno hx
          have : max 0 (min (a.y + a.height) (b.y + b.height) - max a.y b.y)
              = 0 := max_eq_left (by linarith)
          rw [this, mul_zero]
        · push_neg at hx
          have : max 0 (min (a.x + a.width) (b.x + b.width) - max a.x b.x)
              = 0 := max_eq_left (by linarith)
          rw [this, zero_mul]
      · rcases mul_eq_zero.mp ha with hw | hh
        · have h1 := min_le_left (a.x + a.width) (b.x + b.width)
          have h2 := le_max_left a.x b.x
          have : max 0 (min (a.x + a.width) (b.x + b.width) - max a.x b.x)
              = 0 := max_eq_left (by linarith)
          rw [this, zero_mul]
        · have h1 := min_le_left (a.y + a.height) (b.y + b.height)
          have h2 := le_max_left a.y b.y
          have : max 0 (min (a.y + a.height) (b.y + b.height) - max a.y b.y)
              = 0 := max_eq_left (by linarith)
          rw [this, mul_zero]
      · rcases mul_eq_zero.mp hb with hw | hh
        · have h1 := min_le_right (a.x + a.width) (b.x + b.width)
          have h2 := le_max_right a.x b.x
          have : max 0 (min (a.x + a.width) (b.x + b.width) - max a.x b.x)
              = 0 := max_eq_left (by linarith)
          rw [this, zero_mul]
        · have h1 := min_le_right (a.y + a.height) (b.y + b.height)
          have h2 := le_max_right a.y b.y
          have : max 0 (min (a.y + a.height) (b.y + b.height) - max a.y b.y)
              = 0 := max_eq_left (by linarith)
          rw [this, mul_zero]
    rw [hinter]
    split_ifs with h0
    · exact zero_div _
    · rfl

/-- Witness for C8's conditional parts at concrete boxes. -/
theorem iou_symm_self_one_nonoverlap_zero_witness :
    calculate_iou ⟨0, 0, 2, 2⟩ ⟨1, 1, 2, 2⟩
      = calculate_iou ⟨1, 1, 2, 2⟩ ⟨0, 0, 2, 2⟩ ∧
    calculate_iou ⟨0, 0, 2, 3⟩ ⟨0, 0, 2, 3⟩ = 1 ∧
    calculate_iou ⟨0, 0, 0, 1⟩ ⟨5, 5, 1, 1⟩ = 0 :=
  ⟨iou_symm_self_one_nonoverlap_zero.1 ⟨0, 0, 2, 2⟩ ⟨1, 1, 2, 2⟩,
   iou_symm_self_one_nonoverlap_zero.2.1 ⟨0, 0, 2, 3⟩ (by norm_num) (by norm_num),
   iou_symm_self_one_nonoverlap_zero.2.2 ⟨0, 0, 0, 1⟩ ⟨5, 5, 1, 1⟩
     (Or.inr (Or.inl (by norm_num [Rect.area])))⟩

/-- C1 (counterexample): with no homography configured, `Calibration::transform`
does not return the input pair unchanged — the point `(3,4)` comes back as the
default-constructed origin. -/
theorem calibration_empty_not_identity :
    Calibration.transform ⟨none⟩ (7, ⟨3, 4⟩) ≠ (7, ⟨3, 4⟩) := by
  decide

/-- C1 (amended): with no homography configured (matrix empty), `transform`
raises no error and preserves the track id, but maps every point to the
default-constructed origin `(0, 0)` instead of acting as the identity. -/
theorem calibration_empty_transform_zeroes (c : Calibration)
    (hc : c.homography_matrix = none) (id : ℤ) (p : Point2) :
    c.transform (id, p) = (id, ⟨0, 0⟩) := by
  unfold Calibration.transform
  rw [hc]

/-- Witness for the amended C1 at a concrete input. -/
theorem calibration_empty_transform_zeroes_witness :
    Calibration.transform ⟨none⟩ (7, ⟨3, 4⟩) = (7, ⟨0, 0⟩) :=
  calibration_empty_transform_zeroes ⟨none⟩ rfl 7 ⟨3, 4⟩

end Football
